import Mathlib

/-!
Shallow embedding of `src/outputs/influxdb_output/influxdb_output.go`
(package `influxdb_output` of the gnmic repository).

Modelling conventions:
* The Go channels `reset` and `startSig` are one-shot broadcast signals
  (fired by `close`, rearmed by a fresh `make`).  Channel identity is
  modelled by a generation number: the state holds the generation of the
  currently live (unfired) channel, and firing a signal records the fired
  generation and increments the counter (the fresh replacement channel).
* `time.Duration` values are integers counted in nanoseconds, as in Go.
* The external collaborators (the influxdb client, the gnmi proto types and
  `collector.ResponseToEventMsgs`) are not part of this package; they enter
  the embedding only as parameters or as abstract payloads.
-/

namespace InfluxdbOutput

/-- One nanosecond-denominated second, matching Go `time.Second`. -/
def second : Int := 1000000000

/-- Source constant `defaultURL = "http://localhost:8086"`. -/
def defaultURL : String := "http://localhost:8086"

/-- Source constant `defaultBatchSize = 1000`. -/
def defaultBatchSize : Nat := 1000

/-- Source constant `defaultFlushTimer = 10 * time.Second`. -/
def defaultFlushTimer : Int := 10 * second

/-- Source constant `defaultHealthCheckPeriod = 30 * time.Second`. -/
def defaultHealthCheckPeriod : Int := 30 * second

/-- Source constant `numWorkers = 1`. -/
def numWorkers : Nat := 1

/-- The `Config` struct of the source file.  Durations are nanoseconds. -/
structure Config where
  url : String
  org : String
  bucket : String
  token : String
  batchSize : Nat
  flushTimer : Int
  useGzip : Bool
  enableTLS : Bool
  healthCheckPeriod : Int
  debug : Bool
  deriving DecidableEq, Repr

/-- The default-substitution block of `Init` (source lines 87-98): each of
`URL`, `BatchSize`, `FlushTimer`, `HealthCheckPeriod` is replaced by its
default exactly when it is zero-valued; every other field is untouched. -/
def applyDefaults (c : Config) : Config :=
  { c with
    url := if c.url = "" then defaultURL else c.url
    batchSize := if c.batchSize = 0 then defaultBatchSize else c.batchSize
    flushTimer := if c.flushTimer = 0 then defaultFlushTimer else c.flushTimer
    healthCheckPeriod :=
      if c.healthCheckPeriod = 0 then defaultHealthCheckPeriod
      else c.healthCheckPeriod }

/-- The mutable coordination state of `InfluxDBOutput`: the current `reset`
channel, the current `startSig` channel (both as generation numbers of the
live channel) and the `wasup` flag. -/
structure SinkState where
  resetGen : Nat
  startSigGen : Nat
  wasup : Bool
  deriving DecidableEq, Repr

/-- The state built by the `Register` factory (source lines 28-37): fresh
channels, `wasup` defaulting to `false`. -/
def initialSinkState : SinkState := ⟨0, 0, false⟩

/-- A broadcast firing observed during a health step: `close(i.reset)` or
`close(i.startSig)`, tagged with the generation of the closed channel. -/
inductive FiredSignal where
  | reset (gen : Nat)
  | start (gen : Nat)
  deriving DecidableEq, Repr

/-- Outcome of one `i.client.Health(ctx)` probe, as discriminated by the
source `health` function: the call errors; the call succeeds with a non-nil
report that fails `json.Marshal`; it succeeds with a marshallable report; or
it succeeds with a nil report. -/
inductive ProbeResult where
  | err
  | okMalformed
  | okReport
  | okNil
  deriving DecidableEq, Repr

/-- Whether the source `health` function returns a non-nil error for this
probe outcome (the two failure branches return the error, the two success
branches return nil). -/
def healthErr (p : ProbeResult) : Bool :=
  match p with
  | .err => true
  | .okMalformed => true
  | .okReport => false
  | .okNil => false

/-- One execution of the source `health` method (lines 183-215) on the
mutable sink state: returns the post-state and the list of channel closes
performed.  Failure branches close `reset` only under `wasup` (and leave
`wasup` untouched); success branches set `wasup` and unconditionally close
`startSig`.  Every close is immediately followed by a fresh channel, hence
the generation increment in the same step. -/
def healthStep (s : SinkState) (p : ProbeResult) : SinkState × List FiredSignal :=
  match p with
  | .err =>
    if s.wasup then
      ({ s with resetGen := s.resetGen + 1 }, [.reset s.resetGen])
    else (s, [])
  | .okMalformed =>
    if s.wasup then
      ({ s with resetGen := s.resetGen + 1 }, [.reset s.resetGen])
    else (s, [])
  | .okReport =>
    ({ s with wasup := true, startSigGen := s.startSigGen + 1 },
      [.start s.startSigGen])
  | .okNil =>
    ({ s with wasup := true, startSigGen := s.startSigGen + 1 },
      [.start s.startSigGen])

/-- The health monitor observing a sequence of probe outcomes (the
`healthCheck` ticker loop repeatedly invoking `health`): final state and the
concatenated list of channel closes, in order. -/
def runHealth (s : SinkState) : List ProbeResult → SinkState × List FiredSignal
  | [] => (s, [])
  | p :: ps =>
    let step := healthStep s p
    let rest := runHealth step.1 ps
    (rest.1, step.2 ++ rest.2)

/-- Generations of the `reset` channels closed in a firing list. -/
def resetGens (l : List FiredSignal) : List Nat :=
  l.filterMap fun f =>
    match f with
    | .reset g => some g
    | .start _ => none

/-- Generations of the `startSig` channels closed in a firing list. -/
def startGens (l : List FiredSignal) : List Nat :=
  l.filterMap fun f =>
    match f with
    | .reset _ => none
    | .start g => some g

/-- The spec-level `HealthState` is `Up` after a trace exactly when the most
recent probe succeeded (`Unknown`, hence not `Up`, on the empty trace). -/
def specUp (ps : List ProbeResult) : Bool :=
  ps.foldl (fun _ p => ! healthErr p) false

/-- A scalar carried in `EventMsg.Values` (Go `interface\x7b\x7d` holding a
decoded gnmi scalar). -/
inductive GoValue where
  | str (s : String)
  | int (n : Int)
  | boolean (b : Bool)
  deriving DecidableEq, Repr

/-- `collector.EventMsg`: name, tags, values and a unix-nanosecond
timestamp.  Maps are modelled as association lists. -/
structure EventMsg where
  name : String
  tags : List (String × String)
  values : List (String × GoValue)
  timestamp : Int
  deriving DecidableEq, Repr

/-- An influxdb point as built by `influxdb2.NewPoint(name, tags, values,
time.Unix(0, ts))`; `time` is the unix-nanosecond instant. -/
structure Point where
  measurement : String
  tags : List (String × String)
  fields : List (String × GoValue)
  time : Int
  deriving DecidableEq, Repr

/-- The point built by the worker on dequeuing an event (source line 236):
`influxdb2.NewPoint(ev.Name, ev.Tags, ev.Values, time.Unix(0, ev.Timestamp))`. -/
def toPoint (ev : EventMsg) : Point :=
  ⟨ev.name, ev.tags, ev.values, ev.timestamp⟩

/-- The `outputs.Meta` map (`map[string]string`), as an association list. -/
def Meta : Type := List (String × String)

/-- The measurement-name selection at the top of the `Write` switch (source
lines 142-145): the value under the `subscription-name` key when present,
the literal `default` otherwise. -/
def measName (meta : Meta) : String :=
  match List.lookup "subscription-name" meta with
  | some subName => subName
  | none => "default"

/-- Abstract payload of a `gnmi.SubscribeResponse` (the proto content is
external to this package; only its identity matters here). -/
structure SubscribeResponse where
  id : Nat
  deriving DecidableEq, Repr

/-- The `proto.Message` argument of `Write`: either a
`gnmi.SubscribeResponse` or any other message type (which the type switch
ignores). -/
inductive ProtoMessage where
  | subscribeResponse (r : SubscribeResponse)
  | other
  deriving DecidableEq, Repr

/-- A converter standing for the external
`collector.ResponseToEventMsgs(measName, rsp, meta)` call: it receives the
measurement name, the response and the metadata and yields events or an
error. -/
def Converter : Type :=
  String → SubscribeResponse → Meta → Except String (List EventMsg)

/-- Which arm of the three-way `select` in `Write` (source lines 152-158)
fires for one event: the cancellation context is done, the current `reset`
channel has been closed, or the send on `eventChan` is accepted. -/
inductive SelectOutcome where
  | ctxDone
  | resetFired
  | enqueued
  deriving DecidableEq, Repr

/-- The delivery loop of `Write` (source lines 151-159): one select per
event, driven by a schedule of select outcomes.  Cancellation or a fired
reset returns from `Write`, dropping the current and all remaining events;
an accepted send enqueues the event and moves to the next one.  The result
is the list of events actually placed on `eventChan`. -/
def raceDeliver : List EventMsg → List SelectOutcome → List EventMsg
  | [], _ => []
  | _ :: _, [] => []
  | ev :: evs, o :: os =>
    match o with
    | .ctxDone => []
    | .resetFired => []
    | .enqueued => ev :: raceDeliver evs os

/-- The `Write` method (source lines 136-161).  It never returns an error
(the Go signature has no result) and never assigns any field of the
receiver, so the sink state is threaded through unchanged; the only
observable effect is the list of events enqueued on `eventChan`.  A nil
message, a non-SubscribeResponse message, or a conversion error each return
with nothing enqueued. -/
def Write (st : SinkState) (rsp : Option ProtoMessage) (meta : Meta)
    (conv : Converter) (sched : List SelectOutcome) :
    SinkState × List EventMsg :=
  match rsp with
  | none => (st, [])
  | some .other => (st, [])
  | some (.subscribeResponse r) =>
    match conv (measName meta) r meta with
    | .error _ => (st, [])
    | .ok events => (st, raceDeliver events sched)

/-- One input the worker select loop (source lines 227-244) can react to:
context cancellation, an event from `eventChan`, the `reset` channel firing,
or an asynchronous error from the writer error stream. -/
inductive WorkerInput where
  | ctxDone
  | event (ev : EventMsg)
  | resetFired
  | writerError
  deriving DecidableEq, Repr

/-- Observable actions of the worker.  `acquire g` is
`writer := i.client.WriteAPI(org, bucket)` creating handle generation `g`;
`release g` marks the moment the binding to handle `g` is dropped (the
reassignment at the `START` label); `waitRecovery` is the blocking
`<-i.startSig` receive; `writePoint` is `writer.WritePoint`; `terminate` is
the return on cancellation. -/
inductive WAct where
  | acquire (g : Nat)
  | release (g : Nat)
  | waitRecovery
  | writePoint (p : Point)
  | terminate
  deriving DecidableEq, Repr

/-- The worker select loop with current handle generation `g`, consuming
one input per iteration.  Cancellation terminates (remaining inputs are
never seen); an event is converted and written; a reset firing sets
`firstStart = false` and jumps to `START`, where the worker waits on
`startSig`, drops its old handle at the reassignment and acquires a fresh
one; a writer error is only logged. -/
def workerLoop (g : Nat) : List WorkerInput → List WAct
  | [] => []
  | .ctxDone :: _ => [.terminate]
  | .event ev :: rest => .writePoint (toPoint ev) :: workerLoop g rest
  | .resetFired :: rest =>
    .waitRecovery :: .release g :: .acquire (g + 1) :: workerLoop (g + 1) rest
  | .writerError :: rest => workerLoop g rest

/-- The `worker` method (source lines 217-245): `firstStart = true` on
entry, so the first pass through `START` skips the `startSig` wait and
acquires handle generation 0 directly, then enters the select loop. -/
def worker (inputs : List WorkerInput) : List WAct :=
  .acquire 0 :: workerLoop 0 inputs

/-- Scan of an action list checking the restart discipline inside the
running loop: writes and a final terminate are free; a re-entry is exactly
the triple wait-for-recovery, release of the current handle, acquire of the
next generation; no lone acquire, release or wait occurs. -/
def wfActs (g : Nat) : List WAct → Bool
  | [] => true
  | .writePoint _ :: rest => wfActs g rest
  | [.terminate] => true
  | .waitRecovery :: .release g0 :: .acquire g1 :: rest =>
    g0 = g && g1 = g + 1 && wfActs (g + 1) rest
  | _ => false

/-- Scan of an action list checking that, starting from `n` live writer
handles, the number of live handles never leaves `\x7b0, 1\x7d`: an acquire
happens only with no live handle, a release only with exactly one. -/
def liveBounded (n : Nat) : List WAct → Bool
  | [] => true
  | .acquire _ :: rest => n = 0 && liveBounded 1 rest
  | .release _ :: rest => n = 1 && liveBounded 0 rest
  | _ :: rest => liveBounded n rest

/-- Result of a completed `Init` (source lines 78-134) once the initial
health gate has passed: how many influxdb clients were created (one per
`CRCLIENT` pass), the total nanoseconds slept (10 seconds per failed
probe), whether the `healthCheck` monitor goroutine was spawned, and how
many worker goroutines were spawned. -/
structure InitResult where
  clientsCreated : Nat
  sleptNs : Int
  monitorSpawned : Bool
  workersSpawned : Nat
  deriving DecidableEq, Repr

/-- The `CRCLIENT` retry loop of `Init` with `n` failed probes so far: each
pass creates a client and probes once; on error it sleeps 10 seconds and
recreates the client; on the first success it spawns the health monitor and
the workers.  `none` means the given probe prefix never succeeded, so the
loop is still retrying and nothing has been spawned. -/
def initLoop (n : Nat) : List ProbeResult → Option InitResult
  | [] => none
  | p :: ps =>
    if healthErr p then initLoop (n + 1) ps
    else some ⟨n + 1, (n : Int) * (10 * second), true, numWorkers⟩

/-- The `Init` method: a config decode error is returned immediately (no
client, no retry); otherwise defaults are applied and the retry loop runs
against the probe outcomes.  The error type only ever carries the decode
error. -/
def Init (decoded : Except String Config) (probes : List ProbeResult) :
    Except String (Config × Option InitResult) :=
  match decoded with
  | .error e => .error e
  | .ok c => .ok (applyDefaults c, initLoop 0 probes)

/-! Helper lemmas (shared, not claim theorems). -/

theorem raceDeliver_prefix (ev : EventMsg) (evs2 : List EventMsg)
    (o : SelectOutcome) (os2 : List SelectOutcome) :
    ∀ evs1 os1, os1.length = evs1.length →
      (∀ x ∈ os1, x = SelectOutcome.enqueued) →
      raceDeliver (evs1 ++ ev :: evs2) (os1 ++ o :: os2)
        = evs1 ++ (match o with
            | .enqueued => ev :: raceDeliver evs2 os2
            | _ => []) := by
  intro evs1
  induction evs1 with
  | nil =>
    intro os1 hlen _
    have h0 : os1 = [] := List.eq_nil_of_length_eq_zero hlen
    subst h0
    cases o <;> simp [raceDeliver]
  | cons e evs ih =>
    intro os1 hlen henq
    cases os1 with
    | nil => simp at hlen
    | cons x os =>
      have hx : x = SelectOutcome.enqueued := henq x (by simp)
      subst hx
      have hrest : os.length = evs.length := by
        simpa using hlen
      have := ih os hrest (fun y hy => henq y (by simp [hy]))
      simp [raceDeliver, this]

theorem writePoint_mem_workerLoop (p : Point) :
    ∀ (inputs : List WorkerInput) (g : Nat),
      WAct.writePoint p ∈ workerLoop g inputs →
      ∃ ev, WorkerInput.event ev ∈ inputs ∧ p = toPoint ev := by
  intro inputs
  induction inputs with
  | nil => intro g h; simp [workerLoop] at h
  | cons i rest ih =>
    intro g h
    cases i with
    | ctxDone => simp [workerLoop] at h
    | event ev =>
      rw [workerLoop] at h
      rcases List.mem_cons.mp h with heq | hmem
      · exact ⟨ev, by simp, by injection heq with h0⟩
      · rcases ih g hmem with ⟨ev2, hev2, hp⟩
        exact ⟨ev2, by simp [hev2], hp⟩
    | resetFired =>
      rw [workerLoop] at h
      simp only [List.mem_cons] at h
      rcases h with h | h | h | hmem
      · exact absurd h (by simp)
      · exact absurd h (by simp)
      · exact absurd h (by simp)
      · rcases ih (g + 1) hmem with ⟨ev2, hev2, hp⟩
        exact ⟨ev2, by simp [hev2], hp⟩
    | writerError =>
      rw [workerLoop] at h
      rcases ih g h with ⟨ev2, hev2, hp⟩
      exact ⟨ev2, by simp [hev2], hp⟩

theorem wfActs_workerLoop :
    ∀ (inputs : List WorkerInput) (g : Nat),
      wfActs g (workerLoop g inputs) = true := by
  intro inputs
  induction inputs with
  | nil => intro g; rfl
  | cons i rest ih =>
    intro g
    cases i with
    | ctxDone => rfl
    | event ev =>
      rw [workerLoop]
      cases hrest : workerLoop g rest with
      | nil => rfl
      | cons a l =>
        have := ih g
        rw [hrest] at this
        simpa [wfActs] using this
    | resetFired =>
      rw [workerLoop]
      simp [wfActs, ih (g + 1)]
    | writerError =>
      rw [workerLoop]
      exact ih g

theorem liveBounded_workerLoop :
    ∀ (inputs : List WorkerInput) (g : Nat),
      liveBounded 1 (workerLoop g inputs) = true := by
  intro inputs
  induction inputs with
  | nil => intro g; rfl
  | cons i rest ih =>
    intro g
    cases i with
    | ctxDone => rfl
    | event ev => rw [workerLoop]; simpa [liveBounded] using ih g
    | resetFired => rw [workerLoop]; simpa [liveBounded] using ih (g + 1)
    | writerError => rw [workerLoop]; exact ih g

theorem resetGens_append (a b : List FiredSignal) :
    resetGens (a ++ b) = resetGens a ++ resetGens b := by
  simp [resetGens, List.filterMap_append]

theorem startGens_append (a b : List FiredSignal) :
    startGens (a ++ b) = startGens a ++ startGens b := by
  simp [startGens, List.filterMap_append]

theorem healthStep_resets (s : SinkState) (p : ProbeResult) :
    resetGens (healthStep s p).2
      = (if healthErr p && s.wasup then [s.resetGen] else []) ∧
    (healthStep s p).1.resetGen
      = (if healthErr p && s.wasup then s.resetGen + 1 else s.resetGen) := by
  cases hw : s.wasup <;> cases p <;>
    simp [healthStep, healthErr, resetGens, hw]

theorem healthStep_starts (s : SinkState) (p : ProbeResult) :
    startGens (healthStep s p).2
      = (if healthErr p then [] else [s.startSigGen]) ∧
    (healthStep s p).1.startSigGen
      = (if healthErr p then s.startSigGen else s.startSigGen + 1) := by
  cases hw : s.wasup <;> cases p <;>
    simp [healthStep, healthErr, startGens, hw]

theorem healthStep_wasup (s : SinkState) (p : ProbeResult) :
    (healthStep s p).1.wasup = (s.wasup || ! healthErr p) := by
  cases hw : s.wasup <;> cases p <;> simp [healthStep, healthErr, hw]

theorem runHealth_cons (s : SinkState) (p : ProbeResult)
    (ps : List ProbeResult) :
    runHealth s (p :: ps)
      = ((runHealth (healthStep s p).1 ps).1,
         (healthStep s p).2 ++ (runHealth (healthStep s p).1 ps).2) := rfl

theorem runHealth_bounds (ps : List ProbeResult) :
    ∀ s : SinkState,
      (∀ g ∈ resetGens (runHealth s ps).2,
        s.resetGen ≤ g ∧ g < (runHealth s ps).1.resetGen) ∧
      (∀ g ∈ startGens (runHealth s ps).2,
        s.startSigGen ≤ g ∧ g < (runHealth s ps).1.startSigGen) ∧
      s.resetGen ≤ (runHealth s ps).1.resetGen ∧
      s.startSigGen ≤ (runHealth s ps).1.startSigGen := by
  induction ps with
  | nil =>
    intro s
    simp [runHealth, resetGens, startGens]
  | cons p ps ih =>
    intro s
    obtain ⟨ihr, ihs, ihmr, ihms⟩ := ih (healthStep s p).1
    have hr1 := (healthStep_resets s p).1
    have hr2 := (healthStep_resets s p).2
    have hs1 := (healthStep_starts s p).1
    have hs2 := (healthStep_starts s p).2
    rw [runHealth_cons]
    dsimp only
    refine ⟨?_, ?_, ?_, ?_⟩
    · intro g hg
      rw [resetGens_append, List.mem_append] at hg
      rcases hg with hg | hg
      · rw [hr1] at hg
        by_cases hc : (healthErr p && s.wasup) = true
        · rw [if_pos hc] at hg
          rw [if_pos hc] at hr2
          simp at hg
          subst hg
          exact ⟨Nat.le_refl _, by omega⟩
        · rw [if_neg hc] at hg
          simp at hg
      · obtain ⟨h1, h2⟩ := ihr g hg
        refine ⟨?_, h2⟩
        by_cases hc : (healthErr p && s.wasup) = true
        · rw [if_pos hc] at hr2; omega
        · rw [if_neg hc] at hr2; omega
    · intro g hg
      rw [startGens_append, List.mem_append] at hg
      rcases hg with hg | hg
      · rw [hs1] at hg
        by_cases hc : healthErr p = true
        · rw [if_pos hc] at hg
          simp at hg
        · rw [if_neg hc] at hg
          rw [if_neg hc] at hs2
          simp at hg
          subst hg
          exact ⟨Nat.le_refl _, by omega⟩
      · obtain ⟨h1, h2⟩ := ihs g hg
        refine ⟨?_, h2⟩
        by_cases hc : healthErr p = true
        · rw [if_pos hc] at hs2; omega
        · rw [if_neg hc] at hs2; omega
    · by_cases hc : (healthErr p && s.wasup) = true
      · rw [if_pos hc] at hr2; omega
      · rw [if_neg hc] at hr2; omega
    · by_cases hc : healthErr p = true
      · rw [if_pos hc] at hs2; omega
      · rw [if_neg hc] at hs2; omega

theorem runHealth_pairwise (ps : List ProbeResult) :
    ∀ s : SinkState,
      (resetGens (runHealth s ps).2).Pairwise (· < ·) ∧
      (startGens (runHealth s ps).2).Pairwise (· < ·) := by
  induction ps with
  | nil =>
    intro s
    simp [runHealth, resetGens, startGens]
  | cons p ps ih =>
    intro s
    obtain ⟨ihr, ihs⟩ := ih (healthStep s p).1
    have hb := runHealth_bounds ps (healthStep s p).1
    have hr1 := (healthStep_resets s p).1
    have hr2 := (healthStep_resets s p).2
    have hs1 := (healthStep_starts s p).1
    have hs2 := (healthStep_starts s p).2
    rw [runHealth_cons]
    dsimp only
    constructor
    · rw [resetGens_append, List.pairwise_append]
      refine ⟨?_, ihr, ?_⟩
      · rw [hr1]
        by_cases hc : (healthErr p && s.wasup) = true <;>
          simp [hc]
      · intro a ha b hb2
        rw [hr1] at ha
        by_cases hc : (healthErr p && s.wasup) = true
        · rw [if_pos hc] at ha
          rw [if_pos hc] at hr2
          simp at ha
          subst ha
          have := (hb.1 b hb2).1
          omega
        · rw [if_neg hc] at ha
          simp at ha
    · rw [startGens_append, List.pairwise_append]
      refine ⟨?_, ihs, ?_⟩
      · rw [hs1]
        by_cases hc : healthErr p = true <;> simp [hc]
      · intro a ha b hb2
        rw [hs1] at ha
        by_cases hc : healthErr p = true
        · rw [if_pos hc] at ha
          simp at ha
        · rw [if_neg hc] at ha
          rw [if_neg hc] at hs2
          simp at ha
          subst ha
          have := (hb.2.1 b hb2).1
          omega

theorem initLoop_allFail :
    ∀ (probes : List ProbeResult) (n : Nat),
      (∀ p ∈ probes, healthErr p = true) → initLoop n probes = none := by
  intro probes
  induction probes with
  | nil => intro n _; rfl
  | cons p ps ih =>
    intro n h
    have hp := h p (by simp)
    rw [initLoop, if_pos hp]
    exact ih (n + 1) fun q hq => h q (by simp [hq])

theorem initLoop_firstSuccess :
    ∀ (ps1 : List ProbeResult) (p : ProbeResult) (ps2 : List ProbeResult)
      (n : Nat),
      (∀ q ∈ ps1, healthErr q = true) → healthErr p = false →
      initLoop n (ps1 ++ p :: ps2)
        = some ⟨n + ps1.length + 1,
            ((n + ps1.length : Nat) : Int) * (10 * second), true,
            numWorkers⟩ := by
  intro ps1
  induction ps1 with
  | nil =>
    intro p ps2 n _ hp
    simp [initLoop, hp]
  | cons q ps ih =>
    intro p ps2 n h hp
    have hq := h q (by simp)
    have hrec := ih p ps2 (n + 1) (fun r hr => h r (by simp [hr])) hp
    rw [List.cons_append, initLoop, if_pos hq, hrec]
    have harith : n + 1 + ps.length = n + (q :: ps).length := by
      simp
      omega
    rw [harith]

end InfluxdbOutput

namespace InfluxdbOutput

/-! Claim theorems. -/

/-- Claim C8: for every call to Write with a SubscribeResponse and a
metadata mapping, the measurement name passed to conversion equals the
value of the subscription-name metadata key when that key is present, and
equals the string default when it is absent. -/
theorem measName_subscription_name (meta : Meta) (v : String) :
    (List.lookup "subscription-name" meta = some v → measName meta = v) ∧
    (List.lookup "subscription-name" meta = none → measName meta = "default") := by
  constructor <;> intro h <;> simp [measName, h]

/-- Witness for C8 at concrete metadata maps. -/
theorem measName_subscription_name_witness :
    measName [("subscription-name", "sub1")] = "sub1" ∧
    measName [("other", "x")] = "default" :=
  ⟨(measName_subscription_name [("subscription-name", "sub1")] "sub1").1 (by decide),
   (measName_subscription_name [("other", "x")] "sub1").2 (by decide)⟩

/-- Claim C9: default substitution at initialization: a zero-valued url,
batchSize, flushTimer or healthCheckPeriod becomes the respective default
(localhost URL, 1000, 10 seconds, 30 seconds), a non-zero supplied value is
left unchanged, and every other field is untouched. -/
theorem applyDefaults_spec (c : Config) :
    (applyDefaults c).url = (if c.url = "" then defaultURL else c.url) ∧
    (applyDefaults c).batchSize
      = (if c.batchSize = 0 then defaultBatchSize else c.batchSize) ∧
    (applyDefaults c).flushTimer
      = (if c.flushTimer = 0 then defaultFlushTimer else c.flushTimer) ∧
    (applyDefaults c).healthCheckPeriod
      = (if c.healthCheckPeriod = 0 then defaultHealthCheckPeriod
         else c.healthCheckPeriod) ∧
    defaultURL = "http://localhost:8086" ∧
    defaultBatchSize = 1000 ∧
    defaultFlushTimer = 10 * second ∧
    defaultHealthCheckPeriod = 30 * second ∧
    (applyDefaults c).org = c.org ∧
    (applyDefaults c).bucket = c.bucket ∧
    (applyDefaults c).token = c.token ∧
    (applyDefaults c).useGzip = c.useGzip ∧
    (applyDefaults c).enableTLS = c.enableTLS ∧
    (applyDefaults c).debug = c.debug :=
  ⟨rfl, rfl, rfl, rfl, rfl, rfl, rfl, rfl, rfl, rfl, rfl, rfl, rfl, rfl⟩

/-- Claim C10: Write is a total no-op at the public interface for
unsupported input: a nil message, a proto message other than a gnmi
SubscribeResponse, or a SubscribeResponse whose conversion fails, each
return with no event enqueued, no error signalled (the return type carries
none), and the sink state unchanged. -/
theorem Write_noop_unsupported (st : SinkState) (meta : Meta)
    (conv : Converter) (sched : List SelectOutcome) :
    Write st none meta conv sched = (st, []) ∧
    Write st (some .other) meta conv sched = (st, []) ∧
    (∀ r e, conv (measName meta) r meta = .error e →
      Write st (some (.subscribeResponse r)) meta conv sched = (st, [])) := by
  refine ⟨rfl, rfl, fun r e h => ?_⟩
  simp [Write, h]

/-- Witness for C10 with a concrete failing converter. -/
theorem Write_noop_unsupported_witness :
    Write initialSinkState (some (.subscribeResponse ⟨0⟩)) []
        (fun _ _ _ => .error "bad") [] = (initialSinkState, []) :=
  (Write_noop_unsupported initialSinkState [] (fun _ _ _ => .error "bad")
    []).2.2 ⟨0⟩ "bad" rfl

/-- Claim C7: point conversion is the identity mapping on event structure:
every point submitted by a worker comes from a dequeued event and has
measurement equal to the event name, tags equal to the event tag set,
fields equal to the event value set, and time equal to the event timestamp
taken as unix nanoseconds. -/
theorem worker_point_identity (inputs : List WorkerInput) (p : Point)
    (hp : WAct.writePoint p ∈ worker inputs) :
    ∃ ev, WorkerInput.event ev ∈ inputs ∧
      p.measurement = ev.name ∧ p.tags = ev.tags ∧
      p.fields = ev.values ∧ p.time = ev.timestamp := by
  have hmem : WAct.writePoint p ∈ workerLoop 0 inputs := by
    rcases List.mem_cons.mp hp with heq | h
    · cases heq
    · exact h
  rcases writePoint_mem_workerLoop p inputs 0 hmem with ⟨ev, hev, hpt⟩
  exact ⟨ev, hev, by rw [hpt]; exact ⟨rfl, rfl, rfl, rfl⟩⟩

/-- Witness for C7 at a concrete dequeued event. -/
theorem worker_point_identity_witness :
    ∃ ev, WorkerInput.event ev
        ∈ [WorkerInput.event ⟨"ifcounters", [("port", "1")],
             [("rx_bytes", GoValue.int 100)], 42⟩] ∧
      Point.measurement ⟨"ifcounters", [("port", "1")],
          [("rx_bytes", GoValue.int 100)], 42⟩ = ev.name ∧
      Point.tags ⟨"ifcounters", [("port", "1")],
          [("rx_bytes", GoValue.int 100)], 42⟩ = ev.tags ∧
      Point.fields ⟨"ifcounters", [("port", "1")],
          [("rx_bytes", GoValue.int 100)], 42⟩ = ev.values ∧
      Point.time ⟨"ifcounters", [("port", "1")],
          [("rx_bytes", GoValue.int 100)], 42⟩ = ev.timestamp :=
  worker_point_identity
    [WorkerInput.event ⟨"ifcounters", [("port", "1")],
       [("rx_bytes", GoValue.int 100)], 42⟩]
    ⟨"ifcounters", [("port", "1")], [("rx_bytes", GoValue.int 100)], 42⟩
    (by decide)

/-- Claim C5: worker restart discipline: the first action of a worker is
acquiring writer handle generation 0, straight into the select loop with no
recovery wait before it; inside the loop every re-entry is exactly a
recovery wait, then the release of the current handle, then the acquire of
the next generation; and starting from zero live handles the live-handle
count never exceeds one. -/
theorem worker_restart_discipline (inputs : List WorkerInput) :
    worker inputs = WAct.acquire 0 :: workerLoop 0 inputs ∧
    wfActs 0 (workerLoop 0 inputs) = true ∧
    liveBounded 0 (worker inputs) = true := by
  refine ⟨rfl, wfActs_workerLoop inputs 0, ?_⟩
  show (decide (0 = 0) && liveBounded 1 (workerLoop 0 inputs)) = true
  simp [liveBounded_workerLoop inputs 0]

/-- Claim C4: for every event produced by conversion inside Write, delivery
is a three-way race: a done cancellation context makes Write return with
that event and all remaining events dropped; a fired failure signal
likewise makes it return, dropping them without surfacing an error;
otherwise the event is enqueued on the event channel and delivery of that
event succeeds. -/
theorem Write_three_way_race (st : SinkState) (meta : Meta)
    (conv : Converter) (r : SubscribeResponse)
    (evs1 : List EventMsg) (ev : EventMsg) (evs2 : List EventMsg)
    (os1 : List SelectOutcome) (o : SelectOutcome) (os2 : List SelectOutcome)
    (hconv : conv (measName meta) r meta = .ok (evs1 ++ ev :: evs2))
    (hlen : os1.length = evs1.length)
    (henq : ∀ x ∈ os1, x = SelectOutcome.enqueued) :
    (o = .ctxDone →
      Write st (some (.subscribeResponse r)) meta conv (os1 ++ o :: os2)
        = (st, evs1)) ∧
    (o = .resetFired →
      Write st (some (.subscribeResponse r)) meta conv (os1 ++ o :: os2)
        = (st, evs1)) ∧
    (o = .enqueued →
      Write st (some (.subscribeResponse r)) meta conv (os1 ++ o :: os2)
        = (st, evs1 ++ ev :: raceDeliver evs2 os2)) := by
  have hd := raceDeliver_prefix ev evs2 o os2 evs1 os1 hlen henq
  refine ⟨fun ho => ?_, fun ho => ?_, fun ho => ?_⟩ <;>
    subst ho <;> simp [Write, hconv, hd]

/-- Witness for C4: one event already enqueued, then each arm of the race
at the second event. -/
theorem Write_three_way_race_witness :
    (Write initialSinkState (some (.subscribeResponse ⟨1⟩)) []
      (fun _ _ _ => .ok [⟨"a", [], [], 1⟩, ⟨"b", [], [], 2⟩])
      [.enqueued, .ctxDone] = (initialSinkState, [⟨"a", [], [], 1⟩])) ∧
    (Write initialSinkState (some (.subscribeResponse ⟨1⟩)) []
      (fun _ _ _ => .ok [⟨"a", [], [], 1⟩, ⟨"b", [], [], 2⟩])
      [.enqueued, .resetFired] = (initialSinkState, [⟨"a", [], [], 1⟩])) ∧
    (Write initialSinkState (some (.subscribeResponse ⟨1⟩)) []
      (fun _ _ _ => .ok [⟨"a", [], [], 1⟩, ⟨"b", [], [], 2⟩])
      [.enqueued, .enqueued]
        = (initialSinkState, [⟨"a", [], [], 1⟩, ⟨"b", [], [], 2⟩])) := by
  refine ⟨?_, ?_, ?_⟩
  · exact (Write_three_way_race initialSinkState []
      (fun _ _ _ => .ok [⟨"a", [], [], 1⟩, ⟨"b", [], [], 2⟩]) ⟨1⟩
      [⟨"a", [], [], 1⟩] ⟨"b", [], [], 2⟩ [] [.enqueued] .ctxDone []
      rfl rfl (by decide)).1 rfl
  · exact (Write_three_way_race initialSinkState []
      (fun _ _ _ => .ok [⟨"a", [], [], 1⟩, ⟨"b", [], [], 2⟩]) ⟨1⟩
      [⟨"a", [], [], 1⟩] ⟨"b", [], [], 2⟩ [] [.enqueued] .resetFired []
      rfl rfl (by decide)).2.1 rfl
  · exact (Write_three_way_race initialSinkState []
      (fun _ _ _ => .ok [⟨"a", [], [], 1⟩, ⟨"b", [], [], 2⟩]) ⟨1⟩
      [⟨"a", [], [], 1⟩] ⟨"b", [], [], 2⟩ [] [.enqueued] .enqueued []
      rfl rfl (by decide)).2.2 rfl

/-- Claim C1, counterexample: after the trace success-then-failure the
spec-level confirmed state is Down, yet the next failed probe still closes
the current reset channel, and a single outage of two consecutive failed
probes closes a reset channel twice — the signal is not gated on a
previous Up state and fires more than once per outage. -/
theorem health_reset_refires_while_down :
    specUp [ProbeResult.okNil, ProbeResult.err] = false ∧
    (healthStep (runHealth initialSinkState
        [ProbeResult.okNil, ProbeResult.err]).1 ProbeResult.err).2
      = [FiredSignal.reset 1] ∧
    ¬ (resetGens (runHealth initialSinkState
        [ProbeResult.okNil, ProbeResult.err, ProbeResult.err]).2).length ≤ 1 := by
  decide

/-- Claim C1, amended: the reset channel is closed exactly when a failed or
malformed probe is observed while `wasup` is true; `wasup` records whether
any probe has ever succeeded and is never cleared by a failure, so after
the first successful probe every failed probe — including consecutive
failures within one outage — closes the then-current reset channel. -/
theorem health_reset_gate_is_wasup (s : SinkState) (p : ProbeResult) :
    resetGens (healthStep s p).2
      = (if healthErr p && s.wasup then [s.resetGen] else []) ∧
    (healthStep s p).1.wasup = (s.wasup || ! healthErr p) :=
  ⟨(healthStep_resets s p).1, healthStep_wasup s p⟩

/-- Claim C2, counterexample: after one successful probe the spec-level
confirmed state is Up, yet the next successful probe still closes the
current startSig channel, and two consecutive successful probes close two
startSig channels — the recovery signal is not restricted to Down-to-Up
transitions. -/
theorem health_start_refires_while_up :
    specUp [ProbeResult.okNil] = true ∧
    (healthStep (runHealth initialSinkState
        [ProbeResult.okNil]).1 ProbeResult.okNil).2
      = [FiredSignal.start 1] ∧
    startGens (runHealth initialSinkState
        [ProbeResult.okNil, ProbeResult.okNil]).2 = [0, 1] := by
  decide

/-- Claim C2, amended: the startSig channel is closed on every successful
probe, regardless of the previous state — once per Down-to-Up transition
but also once per additional successful probe while already Up. -/
theorem health_start_fires_every_success (s : SinkState) (p : ProbeResult) :
    startGens (healthStep s p).2
      = (if healthErr p then [] else [s.startSigGen]) ∧
    (healthStep s p).1.wasup = (s.wasup || ! healthErr p) :=
  ⟨(healthStep_starts s p).1, healthStep_wasup s p⟩

/-- Claim C3: fire-and-rearm invariant: a fired signal is replaced with a
fresh channel in the same step (the live generation right after a firing is
the fired generation plus one); over any run the fired generations of each
kind are strictly increasing, so no channel is ever closed twice; and the
live channel of each kind is never among the fired ones — at most one live
unfired signal of each kind exists at any point. -/
theorem health_fire_and_rearm (s : SinkState) (ps : List ProbeResult) :
    (∀ p g, FiredSignal.reset g ∈ (healthStep s p).2 →
        (healthStep s p).1.resetGen = g + 1) ∧
    (∀ p g, FiredSignal.start g ∈ (healthStep s p).2 →
        (healthStep s p).1.startSigGen = g + 1) ∧
    (resetGens (runHealth s ps).2).Pairwise (· < ·) ∧
    (startGens (runHealth s ps).2).Pairwise (· < ·) ∧
    (runHealth s ps).1.resetGen ∉ resetGens (runHealth s ps).2 ∧
    (runHealth s ps).1.startSigGen ∉ startGens (runHealth s ps).2 := by
  obtain ⟨hr, hs, _, _⟩ := runHealth_bounds ps s
  obtain ⟨hpr, hps⟩ := runHealth_pairwise ps s
  refine ⟨?_, ?_, hpr, hps, ?_, ?_⟩
  · intro p g h
    cases hw : s.wasup <;> cases p <;>
      simp [healthStep, hw] at h ⊢ <;> omega
  · intro p g h
    cases hw : s.wasup <;> cases p <;>
      simp [healthStep, hw] at h ⊢ <;> omega
  · intro hmem
    exact absurd (hr _ hmem).2 (lt_irrefl _)
  · intro hmem
    exact absurd (hs _ hmem).2 (lt_irrefl _)

/-- Witness for C3: the rearm equations at a concrete fired signal of each
kind. -/
theorem health_fire_and_rearm_witness :
    (healthStep ⟨0, 0, true⟩ ProbeResult.err).1.resetGen = 0 + 1 ∧
    (healthStep ⟨0, 0, true⟩ ProbeResult.okNil).1.startSigGen = 0 + 1 :=
  ⟨(health_fire_and_rearm ⟨0, 0, true⟩ []).1 ProbeResult.err 0 (by decide),
   (health_fire_and_rearm ⟨0, 0, true⟩ []).2.1 ProbeResult.okNil 0 (by decide)⟩

/-- Claim C6: Init returns an error exactly when config decoding fails; a
successful decode always yields the effective config plus the retry-loop
outcome, never an error; while every probe fails the loop keeps retrying
(nothing spawned); and when the first success follows k failed probes the
loop has created k + 1 clients, slept k times 10 seconds, and spawned the
health monitor and the numWorkers workers only then. -/
theorem Init_spec :
    (∀ e probes, Init (.error e) probes = .error e) ∧
    (∀ c probes, Init (.ok c) probes
      = .ok (applyDefaults c, initLoop 0 probes)) ∧
    (∀ probes n, (∀ p ∈ probes, healthErr p = true) →
      initLoop n probes = none) ∧
    (∀ ps1 p ps2, (∀ q ∈ ps1, healthErr q = true) → healthErr p = false →
      initLoop 0 (ps1 ++ p :: ps2)
        = some ⟨ps1.length + 1, ((ps1.length : Nat) : Int) * (10 * second),
            true, numWorkers⟩) := by
  refine ⟨fun e probes => rfl, fun c probes => rfl,
    fun probes n h => initLoop_allFail probes n h, fun ps1 p ps2 h hp => ?_⟩
  have := initLoop_firstSuccess ps1 p ps2 0 h hp
  simpa using this

/-- Witness for C6: decode failure surfaces; an all-failure probe list
leaves the loop retrying; three failures then a success create four
clients, sleep thirty seconds total and spawn monitor plus workers. -/
theorem Init_spec_witness :
    Init (.error "bad") [] = .error "bad" ∧
    initLoop 0 [ProbeResult.err] = none ∧
    initLoop 0 ([ProbeResult.err, ProbeResult.err, ProbeResult.err]
        ++ ProbeResult.okNil :: [])
      = some ⟨[ProbeResult.err, ProbeResult.err, ProbeResult.err].length + 1,
          (([ProbeResult.err, ProbeResult.err, ProbeResult.err].length : Nat)
            : Int) * (10 * second), true, numWorkers⟩ :=
  ⟨Init_spec.1 "bad" [],
   Init_spec.2.2.1 [ProbeResult.err] 0 (by decide),
   Init_spec.2.2.2 [ProbeResult.err, ProbeResult.err, ProbeResult.err]
     ProbeResult.okNil [] (by decide) (by decide)⟩

end InfluxdbOutput
